import Mathlib

/-!
Verification of the omfiles tools (`omdump.rs`, `om_temporal_to_spatial.rs`)
against their specification.

The Rust code is shallowly embedded: strings are Lean `String`s manipulated
through executable models of the Rust `str` operations the code uses
(`split`, `starts_with`, byte-slicing after `"child_"`, `parse::<uN>`);
the variable tree of an om file is an inductive tree; the value-read mode of
`omdump` and the conversion pipeline of `om_temporal_to_spatial` become pure
functions returning the observable outcome (messages/exit status, the issued
backend calls in order).  Backend behaviour (file I/O, chunk decoding) is out
of scope; the models record which backend operations the tools invoke.
-/

/-! ## Models of the Rust string operations used by the tools -/

/-- Accumulating worker for `splitChar`: scans the character list left to
right, cutting at every occurrence of `sep` (Rust `str::split(sep: char)`). -/
def splitCharAux (sep : Char) : List Char → List Char → List (List Char)
  | [], acc => [acc.reverse]
  | c :: rest, acc =>
    if c = sep then acc.reverse :: splitCharAux sep rest []
    else splitCharAux sep rest (c :: acc)

/-- Model of Rust `str::split(sep: char)` collected into a vector, as in
`var_path.split('/')`: the pieces between occurrences of `sep`, so the empty
string yields `[""]` and a trailing separator yields a trailing `""`. -/
def splitChar (sep : Char) (s : String) : List String :=
  (splitCharAux sep s.toList []).map fun cs => ⟨cs⟩

/-- Accumulating worker for `splitOnDotDot`: cuts at every (leftmost,
non-overlapping) occurrence of the two-character pattern `..`. -/
def splitOnDotDotAux : List Char → List Char → List (List Char)
  | '.' :: '.' :: rest, acc => acc.reverse :: splitOnDotDotAux rest []
  | c :: rest, acc => splitOnDotDotAux rest (c :: acc)
  | [], acc => [acc.reverse]

/-- Model of Rust `range_str.split("..")` collected into a vector: pieces
between leftmost non-overlapping occurrences of the pattern `".."`. -/
def splitOnDotDot (s : String) : List String :=
  (splitOnDotDotAux s.toList []).map fun cs => ⟨cs⟩

/-- Digit-accumulator worker for `parseUInt`; fails on the first non-digit. -/
def parseDigits : List Char → Nat → Option Nat
  | [], acc => some acc
  | c :: rest, acc =>
    if c.isDigit then parseDigits rest (acc * 10 + (c.toNat - 48))
    else none

/-- Model of Rust `str::parse::<uN>()` for an unsigned integer of bit width
`width`: an optional leading `+`, then one or more ASCII digits, rejecting
the empty digit string and any value not fitting in `width` bits. -/
def parseUInt (width : Nat) (s : String) : Option Nat :=
  let cs :=
    match s.toList with
    | '+' :: rest => rest
    | cs => cs
  match cs with
  | [] => none
  | _ =>
    match parseDigits cs 0 with
    | some n => if n < 2 ^ width then some n else none
    | none => none

/-- Rust `parse::<u64>()`. -/
def parseU64 (s : String) : Option Nat := parseUInt 64 s

/-- Rust `parse::<u32>()`. -/
def parseU32 (s : String) : Option Nat := parseUInt 32 s

/-! ## omdump.rs: range parsing -/

/-- `parse_range` from `omdump.rs`: split the token on `".."`, require
exactly two parts, parse both as `u64`; `none` models the Rust `None`
(a malformed token).  A successful result is the pair (start, end) of the
half-open range `start..end`; reversed bounds are not checked here. -/
def parse_range (range_str : String) : Option (Nat × Nat) :=
  match splitOnDotDot range_str with
  | [a, b] => do
    let s ← parseU64 a
    let e ← parseU64 b
    some (s, e)
  | _ => none

/-! ## omdump.rs: the variable tree and the path resolver -/

/-- A variable node of an om file: optional name, dimensions, chunk
dimensions, and the ordered children (index order is addressing order). -/
inductive OmVar : Type where
  | node (name : Option String) (dims : List Nat) (chunks : List Nat)
      (children : List OmVar)

/-- Rust `reader.get_name()`. -/
def OmVar.get_name : OmVar → Option String
  | .node n _ _ _ => n

/-- Rust `reader.get_dimensions()`. -/
def OmVar.get_dimensions : OmVar → List Nat
  | .node _ d _ _ => d

/-- Rust `reader.get_chunk_dimensions()`. -/
def OmVar.get_chunk_dimensions : OmVar → List Nat
  | .node _ _ c _ => c

/-- The ordered children of a node (Rust `get_child(0..number_of_children)`). -/
def OmVar.children : OmVar → List OmVar
  | .node _ _ _ cs => cs

/-- Rust `part.starts_with("child_")`. -/
def startsWithChild (part : String) : Bool :=
  match part.toList with
  | 'c' :: 'h' :: 'i' :: 'l' :: 'd' :: '_' :: _ => true
  | _ => false

/-- Rust `part["child_".len()..]`: the text after the 6-byte marker
`child_` (only used under `startsWithChild`, where the first six characters
are ASCII, so byte slicing and character dropping agree). -/
def childIndexText (part : String) : String :=
  ⟨part.toList.drop 6⟩

/-- One iteration of the child-matching loop in `omdump.rs` `main`
(value-read mode): does the child at index `i` match the path segment
`part`?  A `child_`-prefixed segment matches only by parsed `u32` index
(and never falls through to the name branches); `unnamed` matches a
nameless child; otherwise the segment must equal the child's name. -/
def childMatches (part : String) (i : Nat) (child : OmVar) : Bool :=
  if startsWithChild part then
    match parseU32 (childIndexText part) with
    | some idx => idx == i
    | none => false
  else if part == "unnamed" && child.get_name.isNone then true
  else child.get_name == some part

/-- The `for i in 0..number_of_children` search of `omdump.rs`, started at
index `i`: the first child (in index order) matching `part`, or `none`. -/
def findChildFrom (part : String) : Nat → List OmVar → Option OmVar
  | _, [] => none
  | i, c :: rest =>
    if childMatches part i c then some c else findChildFrom part (i + 1) rest

/-- The child of `v` selected for segment `part` (first match in index
order), or `none` when no child matches. -/
def findChild (v : OmVar) (part : String) : Option OmVar :=
  findChildFrom part 0 v.children

/-- The `for part in path_parts` walk of `omdump.rs`: each remaining segment
selects a child of the current node; the walk stops with `none` ("Variable
path not found") as soon as a segment matches no child. -/
def resolveParts : OmVar → List String → Option OmVar
  | v, [] => some v
  | v, part :: rest =>
    match findChild v part with
    | some child => resolveParts child rest
    | none => none

/-- The `root_matches` test of `omdump.rs`: does the first path segment
refer to the starting node itself?  A named node matches its own name; a
nameless node matches the tokens `unnamed` and `child_0`. -/
def rootMatchesFirst (root_name : Option String) (first : String) : Bool :=
  match root_name with
  | some name => name == first
  | none => first == "unnamed" || first == "child_0"

/-- Path resolution of `omdump.rs` `main` (value-read mode): empty path,
`root`, and `.` denote the starting node; otherwise the path is split on
`/`, the first segment is consumed against the starting node when
`rootMatchesFirst` holds, and the remaining segments descend through
children via `resolveParts`. -/
def resolve (root : OmVar) (var_path : String) : Option OmVar :=
  let path_parts :=
    if var_path == "" || var_path == "root" || var_path == "." then []
    else splitChar '/' var_path
  match path_parts with
  | [] => some root
  | first :: rest =>
    if rootMatchesFirst root.get_name first then resolveParts root rest
    else resolveParts root (first :: rest)

/-! ## omdump.rs: the observable outcome of value-read mode -/

/-- Observable outcome of `omdump.rs` value-read mode: whether the usage
message was printed to standard error, the process exit status on return
(Rust `main` returning `Ok(())` exits with status 0), and the read issued
to the backend — the resolved variable and the parsed ranges — or `none`
when validation failed before any read. -/
structure ValueModeResult where
  usagePrinted : Bool
  exitCode : Nat
  readIssued : Option (OmVar × List (Nat × Nat))

/-- Value-read mode of `omdump.rs` `main` (`args.len() >= 4`), after the
file was opened successfully: parse all range tokens, resolve the variable
path (on failure: message + usage to stderr, `return Ok(())`, exit 0),
check that the number of range tokens equals the variable's dimension count
and that every token parsed (on failure: message + usage to stderr,
`return Ok(())`, exit 0), then issue the read with the unwrapped ranges.
The exit status on the read path assumes the backend read succeeds. -/
def runValueMode (root : OmVar) (var_path : String) (range_args : List String) :
    ValueModeResult :=
  let ranges := range_args.map parse_range
  match resolve root var_path with
  | none => ⟨true, 0, none⟩
  | some v =>
    if ranges.length != v.get_dimensions.length || ranges.any Option.isNone then
      ⟨true, 0, none⟩
    else
      ⟨false, 0, some (v, ranges.reduceOption)⟩

/-! ## om_temporal_to_spatial.rs: the conversion pipeline -/

/-- A backend call issued by `om_temporal_to_spatial.rs`, in program order.
`γ` is the (opaque) type of compression kinds and `σ` the (opaque) type of
scale factors / add offsets; the tool only copies these values through. -/
inductive ConvEvent (γ σ : Type) : Type where
  | createOutputFile
  | prepareArray (dims chunks : List Nat) (compression : γ)
      (scale_factor add_offset : σ)
  | readSlice (ranges : List (Nat × Nat))
  | writeData (shape : List Nat)
  | finalizeArray
  | writeArrayMeta (label : String)
  | writeTrailer

/-- ndarray `permuted_axes`: the shape of the permuted view (`perm` lists,
for each output axis, the source axis it takes). -/
def permuted_axes (perm shape : List Nat) : List Nat :=
  perm.map fun i => shape.getD i 0

/-- The `for t in 0..time_dim` loop of `om_temporal_to_spatial.rs`, as the
list of backend calls it issues, in order: for each `t` (increasing), one
read of the full spatial extents with time restricted to `t..t+1`, then one
sequential write of the slice reshaped to `[lat, lon, 1]` and permuted by
`[2, 0, 1]` to shape `[1, lat, lon]`. -/
def sliceOps (γ σ : Type) (lat lon : Nat) : Nat → List (ConvEvent γ σ)
  | 0 => []
  | t + 1 =>
    sliceOps γ σ lat lon t ++
      [.readSlice [(0, lat), (0, lon), (t, t + 1)],
       .writeData (permuted_axes [2, 0, 1] [lat, lon, 1])]

/-- The full call trace of `om_temporal_to_spatial.rs` after the input file
was read, with input dimensions `[lat, lon, time]`: create the output file,
declare the output array (dimensions `[time, lat, lon]`, chunks
`[1, lat, lon]`, compression / scale factor / add offset copied from the
input), stream the per-time slices, then finalize, write the array metadata
record (named "data"), and write the trailer last. -/
def convertTrace {γ σ : Type} (lat lon time : Nat) (c : γ) (sf ao : σ) :
    List (ConvEvent γ σ) :=
  [.createOutputFile,
   .prepareArray [time, lat, lon] [1, lat, lon] c sf ao]
  ++ sliceOps γ σ lat lon time
  ++ [.finalizeArray, .writeArrayMeta "data", .writeTrailer]

/-- Result of running `om_temporal_to_spatial.rs` on an input variable:
the backend calls issued, and whether the process panicked. -/
structure ConvRun (γ σ : Type) where
  events : List (ConvEvent γ σ)
  panicked : Bool

/-- `om_temporal_to_spatial.rs` `main` after the input file was opened,
keyed on the input variable's dimension list `dims`: the tool indexes
`dims[0]`, `dims[1]`, `dims[2]` (lat, lon, time) before creating the output
file, so with fewer than three dimensions it panics with an
index-out-of-bounds failure there — no structured error, no backend call,
in particular no output file is created.  Otherwise it runs the streaming
conversion (backend calls assumed to succeed). -/
def runConvert {γ σ : Type} (dims : List Nat) (c : γ) (sf ao : σ) :
    ConvRun γ σ :=
  match dims with
  | lat :: lon :: time :: _ => ⟨convertTrace lat lon time c sf ao, false⟩
  | _ => ⟨[], true⟩

/-! ## Concrete trees used as witnesses and counterexamples -/

/-- A child named `x`. -/
def exChild : OmVar := .node (some "x") [7] [] []

/-- A nameless root with exactly one child. -/
def exRootNameless : OmVar := .node none [1] [] [exChild]

/-- Sibling named `A` (first occurrence). -/
def exA : OmVar := .node (some "A") [1] [] []

/-- Sibling named `B`. -/
def exB : OmVar := .node (some "B") [2] [] []

/-- Second sibling named `A` (index 2). -/
def exA2 : OmVar := .node (some "A") [3] [] []

/-- A root variable named `data` with one dimension and no children. -/
def exDumpRoot : OmVar := .node (some "data") [3] [] []

/-- A root named `data` with one child named `x`. -/
def exNamedRoot : OmVar := .node (some "data") [5] [] [.node (some "x") [7] [] []]

/-! ## Helper lemmas about the child search -/

/-- The indexed child search started at offset `k` returns the first match:
if position `i` matches (at absolute index `k + i`) and every earlier
position does not, the search returns the child at position `i`. -/
theorem findChildFrom_first (part : String) (cs : List OmVar) :
    ∀ (k i : Nat) (hi : i < cs.length),
      childMatches part (k + i) cs[i] = true →
      (∀ (j : Nat) (hj : j < i), childMatches part (k + j) cs[j] = false) →
      findChildFrom part k cs = some cs[i] := by
  induction cs with
  | nil => intro k i hi; exact absurd hi (Nat.not_lt_zero i)
  | cons c rest ih =>
    intro k i hi hmatch hbefore
    cases i with
    | zero =>
      rw [Nat.add_zero] at hmatch
      simp only [List.getElem_cons_zero] at hmatch ⊢
      simp [findChildFrom, hmatch]
    | succ i' =>
      have h0 : childMatches part k c = false := by
        have h := hbefore 0 (Nat.succ_pos i')
        rwa [Nat.add_zero] at h
      have hi' : i' < rest.length := Nat.lt_of_succ_lt_succ hi
      have hmatch' : childMatches part (k + 1 + i') rest[i'] = true := by
        rw [show k + 1 + i' = k + (i' + 1) from by omega]
        simpa using hmatch
      have hbefore' : ∀ (j : Nat) (hj : j < i'),
          childMatches part (k + 1 + j) rest[j] = false := by
        intro j hj
        have h := hbefore (j + 1) (Nat.succ_lt_succ hj)
        rw [show k + 1 + j = k + (j + 1) from by omega]
        simpa using h
      simp only [List.getElem_cons_succ]
      simp only [findChildFrom, h0, if_false]
      exact ih (k + 1) i' hi' hmatch' hbefore'

/-! ## Claim C4: range-token parsing -/

/-- C4: parsing `"0..5"` yields the half-open range (0, 5); a token without
the `..` delimiter (`"5"`) or with a non-numeric bound (`"a..5"`, `"0..b"`)
is malformed (`none`); and `"5..3"` with reversed bounds parses successfully
— the parser does not reject reversed bounds. -/
theorem c4_parse_range_behavior :
    parse_range "0..5" = some (0, 5)
    ∧ parse_range "5" = none
    ∧ parse_range "a..5" = none
    ∧ parse_range "0..b" = none
    ∧ parse_range "5..3" = some (5, 3) :=
  ⟨by decide, by decide, by decide, by decide, by decide⟩

/-! ## Claim C5: first match wins -/

/-- C5: the child search is deterministic and first-match-wins: for every
node and segment, if the child at index `i` matches the segment and no
child at a smaller index does, the resolver selects exactly that child —
it never backtracks to a later match. -/
theorem c5_first_match_wins (v : OmVar) (part : String) (i : Nat)
    (hi : i < v.children.length)
    (hmatch : childMatches part i v.children[i] = true)
    (hbefore : ∀ (j : Nat) (hj : j < i), childMatches part j v.children[j] = false) :
    findChild v part = some v.children[i] := by
  have h := findChildFrom_first part v.children 0 i hi
    (by simpa using hmatch) (fun j hj => by simpa using hbefore j hj)
  simpa [findChild] using h

/-- Witness for C5: with siblings `[A, B, A]` (two children named `A`),
resolving segment `"A"` returns the first occurrence, at index 0. -/
theorem c5_first_match_wins_witness :
    findChild (OmVar.node none [0] [] [exA, exB, exA2]) "A" = some exA :=
  c5_first_match_wins (OmVar.node none [0] [] [exA, exB, exA2]) "A" 0
    (by decide) (by decide) (fun j hj => absurd hj (Nat.not_lt_zero j))

/-! ## Claim C9: child_ segments match only by numeric index -/

/-- C9: for a segment that begins with `child_`, a child matches exactly
when the text after `child_` parses as a `u32` equal to the child's index;
the child's own name is irrelevant (the iff holds for every `child`), so a
child literally named like the segment is never matched by name, and an
unparsable suffix matches no child at all. -/
theorem c9_child_segment_numeric_only (part : String) (i : Nat) (child : OmVar)
    (h : startsWithChild part = true) :
    (childMatches part i child = true ↔ parseU32 (childIndexText part) = some i) := by
  unfold childMatches
  rw [if_pos h]
  cases hp : parseU32 (childIndexText part) with
  | none => simp
  | some idx => simp [beq_iff_eq]

/-- Witness for C9: the segment `"child_x"` has an unparsable index text,
so it does not match even a child whose actual name is `"child_x"`. -/
theorem c9_child_segment_numeric_only_witness :
    childMatches "child_x" 0 (OmVar.node (some "child_x") [1] [] []) = true ↔
      parseU32 (childIndexText "child_x") = some 0 :=
  c9_child_segment_numeric_only "child_x" 0 (OmVar.node (some "child_x") [1] [] [])
    (by decide)

/-! ## Claim C2: resolving "child_0" on a single-child root -/

/-- Counterexample to C2 as stated: on a nameless root with exactly one
child, the first segment `"child_0"` is consumed against the root itself,
so resolution returns the root, not its child — the claim's "regardless of
the root's name (present or absent)" fails for an absent name. -/
theorem c2_counterexample :
    resolve exRootNameless "child_0" = some exRootNameless
    ∧ resolve exRootNameless "child_0" ≠ some exChild := by
  refine ⟨rfl, ?_⟩
  intro h
  rw [show resolve exRootNameless "child_0" = some exRootNameless from rfl] at h
  injection h with h2
  have h3 := congrArg OmVar.get_name h2
  simp [exRootNameless, exChild, OmVar.get_name] at h3

/-- C2 amended: for every tree whose root is *named*, with a name different
from `"child_0"`, and has exactly one child, resolving `"child_0"` returns
that child, regardless of the child's name. -/
theorem c2_amended_child0 (nm : String) (dims chunks : List Nat) (c : OmVar)
    (h : nm ≠ "child_0") :
    resolve (OmVar.node (some nm) dims chunks [c]) "child_0" = some c := by
  have key : resolve (OmVar.node (some nm) dims chunks [c]) "child_0"
      = if nm == "child_0" then some (OmVar.node (some nm) dims chunks [c])
        else some c := rfl
  rw [key, if_neg]
  simp [h]

/-- Witness for the amended C2, at a root named `data` whose only child is
named `x`: `"child_0"` resolves to the child. -/
theorem c2_amended_child0_witness :
    resolve (OmVar.node (some "data") [1] [] [exChild]) "child_0" = some exChild :=
  c2_amended_child0 "data" [1] [] exChild (by decide)

/-! ## Claim C3: the entry segment is consumed against the starting node -/

/-- C3: an empty path, the token `root`, or `.` resolves to the starting
node without descending; and for a non-empty path whose first segment
equals the starting node's name, or whose first segment is `unnamed` or
`child_0` while the starting node is nameless, that first segment is
consumed against the starting node and the remaining segments are resolved
against its children. -/
theorem c3_entry_segment :
    (∀ root : OmVar, resolve root "" = some root
      ∧ resolve root "root" = some root
      ∧ resolve root "." = some root)
    ∧ (∀ (root : OmVar) (var_path first : String) (rest : List String),
        var_path ≠ "" → var_path ≠ "root" → var_path ≠ "." →
        splitChar '/' var_path = first :: rest →
        (root.get_name = some first
          ∨ (root.get_name = none ∧ (first = "unnamed" ∨ first = "child_0"))) →
        resolve root var_path = resolveParts root rest) := by
  constructor
  · intro root
    exact ⟨rfl, rfl, rfl⟩
  · intro root var_path first rest h1 h2 h3 hsplit hname
    have hc : (var_path == "" || var_path == "root" || var_path == ".") = false := by
      simp [h1, h2, h3]
    have hm : rootMatchesFirst root.get_name first = true := by
      rcases hname with hn | ⟨hn, hf⟩
      · rw [hn]
        simp [rootMatchesFirst]
      · rw [hn]
        rcases hf with hf | hf <;> simp [rootMatchesFirst, hf]
    unfold resolve
    simp only [hc, Bool.false_eq_true, if_false, hsplit, hm, if_pos]

/-- Witness for C3: on a root named `data` with a child named `x`, the path
`"data/x"` consumes `data` against the root and resolves `x` against the
children. -/
theorem c3_entry_segment_witness :
    resolve exNamedRoot "data/x" = resolveParts exNamedRoot ["x"] :=
  c3_entry_segment.2 exNamedRoot "data/x" "data" ["x"]
    (by decide) (by decide) (by decide) (by decide) (Or.inl rfl)

/-! ## Claim C1: exit behaviour of value-read mode on validation failure -/

/-- C1 evaluated at failing inputs: on an unresolved variable path, and on a
range/dimensionality mismatch, `omdump` prints the usage message to standard
error but returns `Ok(())`, so the process terminates with exit status 0 —
not the non-zero status the claim (and the spec) require.  No read is
issued in either case. -/
theorem c1_usage_exit_zero :
    runValueMode exDumpRoot "missing" ["0..1"]
      = ⟨true, 0, none⟩
    ∧ runValueMode exDumpRoot "data" ["0..1", "0..2"]
      = ⟨true, 0, none⟩ :=
  ⟨rfl, rfl⟩

/-! ## Claim C8: the read is issued only after validation succeeds -/

/-- C8: in value-read mode, a read is issued only when every validation has
succeeded — the path resolved to the very variable passed to the read, the
number of range tokens equals that variable's dimension count, and every
range token parsed; contrapositively, on any validation failure no read is
issued. -/
theorem c8_read_after_validation (root : OmVar) (var_path : String)
    (range_args : List String) (v : OmVar) (rs : List (Nat × Nat))
    (h : (runValueMode root var_path range_args).readIssued = some (v, rs)) :
    resolve root var_path = some v
    ∧ range_args.length = v.get_dimensions.length
    ∧ ∀ s ∈ range_args, (parse_range s).isSome = true := by
  unfold runValueMode at h
  cases hres : resolve root var_path with
  | none => rw [hres] at h; simp at h
  | some w =>
    rw [hres] at h
    simp only [] at h
    by_cases hcond : ((range_args.map parse_range).length
          != w.get_dimensions.length
        || (range_args.map parse_range).any Option.isNone) = true
    · rw [if_pos hcond] at h
      simp at h
    · rw [if_neg hcond] at h
      simp only [Option.some.injEq, Prod.mk.injEq] at h
      obtain ⟨hv, hrs⟩ := h
      subst hv
      simp only [Bool.or_eq_true, bne_iff_ne, ne_eq, List.any_eq_true,
        Option.isNone_iff_eq_none, not_or, not_exists, not_and, not_not] at hcond
      obtain ⟨hlen, hnone⟩ := hcond
      refine ⟨rfl, ?_, ?_⟩
      · simpa using hlen
      · intro s hs
        have hmem : parse_range s ∈ range_args.map parse_range :=
          List.mem_map_of_mem parse_range hs
        have hne := hnone (parse_range s) hmem
        exact Option.isSome_iff_ne_none.mpr hne

/-- Witness for C8: a successful run on a root named `data` with one
dimension and the single range token `0..2` — the read is issued and all
three validation facts hold. -/
theorem c8_read_after_validation_witness :
    resolve exDumpRoot "data" = some exDumpRoot
    ∧ (["0..2"] : List String).length = exDumpRoot.get_dimensions.length
    ∧ ∀ s ∈ (["0..2"] : List String), (parse_range s).isSome = true :=
  c8_read_after_validation exDumpRoot "data" ["0..2"] exDumpRoot [(0, 2)] rfl

/-! ## Helper lemmas about the conversion trace -/

/-- The slice loop issues exactly two backend calls per time index. -/
theorem sliceOps_length (γ σ : Type) (lat lon : Nat) :
    ∀ n : Nat, (sliceOps γ σ lat lon n).length = 2 * n := by
  intro n
  induction n with
  | zero => rfl
  | succ t ih =>
    simp only [sliceOps, List.length_append, ih, List.length_cons,
      List.length_nil]
    omega

/-- The two backend calls of the `t`-th loop iteration sit at positions
`2*t` and `2*t + 1` of the slice-loop trace: the read of the `t`-th time
slice, then the write of the permuted slice of shape `[1, lat, lon]`. -/
theorem sliceOps_getElem (γ σ : Type) (lat lon : Nat) :
    ∀ (n t : Nat), t < n →
      (sliceOps γ σ lat lon n)[2 * t]?
          = some (.readSlice [(0, lat), (0, lon), (t, t + 1)])
      ∧ (sliceOps γ σ lat lon n)[2 * t + 1]?
          = some (.writeData [1, lat, lon]) := by
  intro n
  induction n with
  | zero => intro t ht; exact absurd ht (Nat.not_lt_zero t)
  | succ m ih =>
    intro t ht
    by_cases hcase : t < m
    · obtain ⟨h1, h2⟩ := ih t hcase
      constructor
      · rw [sliceOps, List.getElem?_append_left (by rw [sliceOps_length]; omega)]
        exact h1
      · rw [sliceOps, List.getElem?_append_left (by rw [sliceOps_length]; omega)]
        exact h2
    · have heq : t = m := by omega
      subst heq
      constructor
      · rw [sliceOps, List.getElem?_append_right (by rw [sliceOps_length])]
        rw [sliceOps_length]
        simp [Nat.sub_self]
      · rw [sliceOps, List.getElem?_append_right (by rw [sliceOps_length]; omega)]
        rw [sliceOps_length]
        simp [Nat.sub_self, Nat.add_sub_cancel_left, permuted_axes]

/-- The conversion trace in cons form: output-file creation and array
declaration first, then the slice loop, then finalize / metadata / trailer. -/
theorem convertTrace_cons {γ σ : Type} (lat lon time : Nat) (c : γ) (sf ao : σ) :
    convertTrace lat lon time c sf ao
      = .createOutputFile
        :: .prepareArray [time, lat, lon] [1, lat, lon] c sf ao
        :: (sliceOps γ σ lat lon time
            ++ [.finalizeArray, .writeArrayMeta "data", .writeTrailer]) := by
  simp [convertTrace]

/-! ## Claim C6: the declared output array -/

/-- C6: for an input variable with dimensions `[lat, lon, time]`, the
conversion tool does not panic and declares the output array with
dimensions `[time, lat, lon]`, chunk shape `[1, lat, lon]`, and the
compression kind, scale factor and add offset read from the input. -/
theorem c6_output_declaration {γ σ : Type} (lat lon time : Nat) (c : γ) (sf ao : σ) :
    (runConvert [lat, lon, time] c sf ao).panicked = false
    ∧ (runConvert [lat, lon, time] c sf ao).events[1]?
        = some (.prepareArray [time, lat, lon] [1, lat, lon] c sf ao) := by
  refine ⟨rfl, ?_⟩
  show (convertTrace lat lon time c sf ao)[1]? = _
  rw [convertTrace_cons]
  simp

/-! ## Claim C7: operation order of the transcoder -/

/-- C7: on input dimensions `[lat, lon, time]` the tool emits the trace
`convertTrace`, and in that trace the `t`-th loop iteration (for each
`t < time`, in increasing order) reads exactly one slice — the full extent
of both spatial axes with time restricted to `[t, t+1)` — at position
`2 + 2*t`, immediately followed at position `3 + 2*t` by the sequential
write of the slice permuted to `[time, lat, lon]` order (shape
`[1, lat, lon]`); the metadata record is written only after the final
slice write (position `3 + 2*time`, after `finalize` at `2 + 2*time`), and
the trailer is written last, at the final position `4 + 2*time` of the
trace of length `5 + 2*time`. -/
theorem c7_operation_order {γ σ : Type} (lat lon time : Nat) (c : γ) (sf ao : σ)
    (t : Nat) (ht : t < time) :
    runConvert [lat, lon, time] c sf ao = ⟨convertTrace lat lon time c sf ao, false⟩
    ∧ (convertTrace lat lon time c sf ao)[2 + 2 * t]?
        = some (.readSlice [(0, lat), (0, lon), (t, t + 1)])
    ∧ (convertTrace lat lon time c sf ao)[3 + 2 * t]?
        = some (.writeData [1, lat, lon])
    ∧ (convertTrace lat lon time c sf ao)[2 + 2 * time]? = some .finalizeArray
    ∧ (convertTrace lat lon time c sf ao)[3 + 2 * time]?
        = some (.writeArrayMeta "data")
    ∧ (convertTrace lat lon time c sf ao)[4 + 2 * time]? = some .writeTrailer
    ∧ (convertTrace lat lon time c sf ao).length = 5 + 2 * time := by
  obtain ⟨hread, hwrite⟩ := sliceOps_getElem γ σ lat lon time t ht
  refine ⟨rfl, ?_, ?_, ?_, ?_, ?_, ?_⟩
  · rw [convertTrace_cons, show 2 + 2 * t = 2 * t + 1 + 1 from by omega]
    simp only [List.getElem?_cons_succ]
    rw [List.getElem?_append_left (by rw [sliceOps_length]; omega)]
    exact hread
  · rw [convertTrace_cons, show 3 + 2 * t = (2 * t + 1) + 1 + 1 from by omega]
    simp only [List.getElem?_cons_succ]
    rw [List.getElem?_append_left (by rw [sliceOps_length]; omega)]
    exact hwrite
  · rw [convertTrace_cons, show 2 + 2 * time = 2 * time + 1 + 1 from by omega]
    simp only [List.getElem?_cons_succ]
    rw [List.getElem?_append_right (by rw [sliceOps_length])]
    rw [sliceOps_length]
    simp [Nat.sub_self]
  · rw [convertTrace_cons, show 3 + 2 * time = (2 * time + 1) + 1 + 1 from by omega]
    simp only [List.getElem?_cons_succ]
    rw [List.getElem?_append_right (by rw [sliceOps_length]; omega)]
    rw [sliceOps_length]
    simp [Nat.add_sub_cancel_left]
  · rw [convertTrace_cons, show 4 + 2 * time = (2 * time + 2) + 1 + 1 from by omega]
    simp only [List.getElem?_cons_succ]
    rw [List.getElem?_append_right (by rw [sliceOps_length]; omega)]
    rw [sliceOps_length]
    simp [Nat.add_sub_cancel_left]
  · rw [convertTrace_cons]
    simp [List.length_append, sliceOps_length]
    omega

/-- Witness for C7 at `lat = 2`, `lon = 3`, `time = 1`, pivot index
`t = 0`, with concrete compression/scale/offset stand-ins. -/
theorem c7_operation_order_witness :
    runConvert [2, 3, 1] (7 : Nat) (1 : Nat) (0 : Nat)
        = ⟨convertTrace 2 3 1 7 1 0, false⟩
    ∧ (convertTrace 2 3 1 (7 : Nat) (1 : Nat) (0 : Nat))[2 + 2 * 0]?
        = some (.readSlice [(0, 2), (0, 3), (0, 1)])
    ∧ (convertTrace 2 3 1 (7 : Nat) (1 : Nat) (0 : Nat))[3 + 2 * 0]?
        = some (.writeData [1, 2, 3])
    ∧ (convertTrace 2 3 1 (7 : Nat) (1 : Nat) (0 : Nat))[2 + 2 * 1]?
        = some .finalizeArray
    ∧ (convertTrace 2 3 1 (7 : Nat) (1 : Nat) (0 : Nat))[3 + 2 * 1]?
        = some (.writeArrayMeta "data")
    ∧ (convertTrace 2 3 1 (7 : Nat) (1 : Nat) (0 : Nat))[4 + 2 * 1]?
        = some .writeTrailer
    ∧ (convertTrace 2 3 1 (7 : Nat) (1 : Nat) (0 : Nat)).length = 5 + 2 * 1 :=
  c7_operation_order 2 3 1 7 1 0 0 (by decide)

/-! ## Claim C10: fewer than three dimensions panics before output creation -/

/-- C10: for every input variable with fewer than three dimensions, the
conversion tool panics (index out of bounds) while reading the dimension
extents: no backend call is issued — in particular the output file is never
created — and no structured error is reported. -/
theorem c10_under_three_dims_panics {γ σ : Type} (dims : List Nat) (c : γ)
    (sf ao : σ) (h : dims.length < 3) :
    runConvert dims c sf ao = ⟨[], true⟩ := by
  rcases dims with _ | ⟨a, _ | ⟨b, _ | ⟨d, rest⟩⟩⟩
  · rfl
  · rfl
  · rfl
  · exfalso
    simp [List.length_cons] at h
    omega

/-- Witness for C10 at the two-dimensional input `[3, 4]`. -/
theorem c10_under_three_dims_panics_witness :
    runConvert [3, 4] (0 : Nat) (0 : Nat) (0 : Nat) = ⟨[], true⟩ :=
  c10_under_three_dims_panics [3, 4] 0 0 0 (by decide)
